import Mathlib

/-!
Verification of the request/session/payload-encoding core of a qBittorrent
Web-API client wrapper (src/index.ts).  The TypeScript class
QBittorrentClient is embedded shallowly: the mutable client fields become an
explicit ClientState, network effects become explicit transport-outcome
arguments, exceptions become Except values carrying the exact message
strings thrown by the source, and the multipart form / URL query bodies
become lists of named entries.
-/

namespace QBitWrap

/-! ## JSON values and JSON.parse

The response decoder in QBittorrentClient.request is the lambda
`(txt) => txt === 'Ok.' ? true : JSON.parse(txt)`.  JSON.parse is the
ECMAScript builtin; it is modelled here by an executable parser for the
JSON grammar (values: object / array / string / number / true / false /
null, with JSON whitespace).  Numbers are kept exactly as a decimal
mantissa together with a power-of-ten exponent.  Object fields are kept as
an association list in parse order.  Escaped lone UTF-16 surrogates are
rejected in this model.
-/

inductive Json where
  | null : Json
  | bool (b : Bool) : Json
  | num (mantissa : Int) (exponent : Int) : Json
  | str (s : String) : Json
  | arr (elems : List Json) : Json
  | obj (fields : List (String × Json)) : Json

/-- JSON whitespace characters: space, tab, line feed, carriage return. -/
def isJsonWs (c : Char) : Bool :=
  c = ' ' || c = '\t' || c = '\n' || c = '\r'

/-- Drop leading JSON whitespace. -/
def skipWs (cs : List Char) : List Char :=
  cs.dropWhile isJsonWs

/-- Hexadecimal digit test, for \u escapes. -/
def isHexDigit (c : Char) : Bool :=
  ('0' ≤ c && c ≤ '9') || ('a' ≤ c && c ≤ 'f') || ('A' ≤ c && c ≤ 'F')

/-- Value of a hexadecimal digit. -/
def hexVal (c : Char) : Nat :=
  if '0' ≤ c && c ≤ '9' then c.toNat - '0'.toNat
  else if 'a' ≤ c && c ≤ 'f' then c.toNat - 'a'.toNat + 10
  else c.toNat - 'A'.toNat + 10

/-- Parse the body of a JSON string after the opening quote: returns the
decoded characters and the remaining input after the closing quote.  The
fuel argument is an upper bound on the number of steps; each step consumes
at least one input character, so `input.length + 1` is always enough. -/
def parseStringBody : Nat → List Char → Option (List Char × List Char)
  | 0, _ => none
  | _ + 1, [] => none
  | fuel + 1, c :: rest =>
    if c = '"' then some ([], rest)
    else if c = '\\' then
      match rest with
      | [] => none
      | e :: rest2 =>
        let simpleEsc : Option Char :=
          if e = '"' then some '"'
          else if e = '\\' then some '\\'
          else if e = '/' then some '/'
          else if e = 'b' then some (Char.ofNat 8)
          else if e = 'f' then some (Char.ofNat 12)
          else if e = 'n' then some '\n'
          else if e = 'r' then some '\r'
          else if e = 't' then some '\t'
          else none
        match simpleEsc with
        | some ch =>
          match parseStringBody fuel rest2 with
          | some (s, r) => some (ch :: s, r)
          | none => none
        | none =>
          if e = 'u' then
            match rest2 with
            | h1 :: h2 :: h3 :: h4 :: rest3 =>
              if isHexDigit h1 && isHexDigit h2 && isHexDigit h3 && isHexDigit h4 then
                let code := ((hexVal h1 * 16 + hexVal h2) * 16 + hexVal h3) * 16 + hexVal h4
                if 0xD800 ≤ code && code < 0xE000 then none
                else
                  match parseStringBody fuel rest3 with
                  | some (s, r) => some (Char.ofNat code :: s, r)
                  | none => none
              else none
            | _ => none
          else none
    else if c.toNat < 32 then none
    else
      match parseStringBody fuel rest with
      | some (s, r) => some (c :: s, r)
      | none => none

/-- Decimal value of a digit list. -/
def digitsToNat (ds : List Char) : Nat :=
  ds.foldl (fun a c => a * 10 + (c.toNat - 48)) 0

/-- Parse a JSON number literal: optional minus sign, integer part with no
leading zero, optional fraction, optional exponent.  Returns the mantissa
(all digits, signed) and the power-of-ten exponent, plus remaining input. -/
def parseNumber (cs : List Char) : Option ((Int × Int) × List Char) :=
  let signStep : Bool × List Char :=
    match cs with
    | '-' :: r => (true, r)
    | _ => (false, cs)
  let neg := signStep.1
  let cs1 := signStep.2
  let intDs := cs1.takeWhile Char.isDigit
  let cs2 := cs1.drop intDs.length
  if intDs.isEmpty then none
  else if 2 ≤ intDs.length && intDs.headD '0' = '0' then none
  else
    let fracStep : Option (List Char × List Char) :=
      match cs2 with
      | '.' :: r =>
        let ds := r.takeWhile Char.isDigit
        if ds.isEmpty then none else some (ds, r.drop ds.length)
      | _ => some ([], cs2)
    match fracStep with
    | none => none
    | some (fracDs, cs3) =>
      let expStep : Option (Int × List Char) :=
        match cs3 with
        | c :: r =>
          if c = 'e' || c = 'E' then
            let signExp : Int × List Char :=
              match r with
              | '+' :: r2 => (1, r2)
              | '-' :: r2 => (-1, r2)
              | _ => (1, r)
            let ds := signExp.2.takeWhile Char.isDigit
            if ds.isEmpty then none
            else some (signExp.1 * (digitsToNat ds : Int), signExp.2.drop ds.length)
          else some (0, cs3)
        | [] => some (0, [])
      match expStep with
      | none => none
      | some (e, cs4) =>
        let mant : Nat := digitsToNat (intDs ++ fracDs)
        let m : Int := if neg then -(mant : Int) else (mant : Int)
        some ((m, e - (fracDs.length : Int)), cs4)

mutual

/-- Parse one JSON value.  Fuel strictly decreases on every recursive call;
each call consumes input, so linear fuel in the input length suffices. -/
def parseVal : Nat → List Char → Option (Json × List Char)
  | 0, _ => none
  | fuel + 1, cs =>
    match skipWs cs with
    | 't' :: 'r' :: 'u' :: 'e' :: r => some (Json.bool true, r)
    | 'f' :: 'a' :: 'l' :: 's' :: 'e' :: r => some (Json.bool false, r)
    | 'n' :: 'u' :: 'l' :: 'l' :: r => some (Json.null, r)
    | '"' :: r =>
      (match parseStringBody (r.length + 1) r with
       | some (s, rest) => some (Json.str (String.mk s), rest)
       | none => none)
    | '[' :: r =>
      (match skipWs r with
       | ']' :: r2 => some (Json.arr [], r2)
       | _ =>
         match parseElems fuel r with
         | some (vs, rest) => some (Json.arr vs, rest)
         | none => none)
    | '{' :: r =>
      (match skipWs r with
       | '}' :: r2 => some (Json.obj [], r2)
       | _ =>
         match parseMembers fuel r with
         | some (ms, rest) => some (Json.obj ms, rest)
         | none => none)
    | rest =>
      match parseNumber rest with
      | some ((m, e), r) => some (Json.num m e, r)
      | none => none

/-- Parse the comma-separated elements of a non-empty JSON array, up to and
including the closing bracket. -/
def parseElems : Nat → List Char → Option (List Json × List Char)
  | 0, _ => none
  | fuel + 1, cs =>
    match parseVal fuel cs with
    | none => none
    | some (v, rest) =>
      match skipWs rest with
      | ',' :: r2 =>
        (match parseElems fuel r2 with
         | some (vs, r3) => some (v :: vs, r3)
         | none => none)
      | ']' :: r2 => some ([v], r2)
      | _ => none

/-- Parse the comma-separated members of a non-empty JSON object, up to and
including the closing brace. -/
def parseMembers : Nat → List Char → Option (List (String × Json) × List Char)
  | 0, _ => none
  | fuel + 1, cs =>
    match skipWs cs with
    | '"' :: r =>
      (match parseStringBody (r.length + 1) r with
       | none => none
       | some (ks, r1) =>
         match skipWs r1 with
         | ':' :: r2 =>
           (match parseVal fuel r2 with
            | none => none
            | some (v, r3) =>
              match skipWs r3 with
              | ',' :: r4 =>
                (match parseMembers fuel r4 with
                 | some (ms, r5) => some ((String.mk ks, v) :: ms, r5)
                 | none => none)
              | '}' :: r4 => some ([(String.mk ks, v)], r4)
              | _ => none)
         | _ => none)
    | _ => none

end

/-- JSON.parse: parse one value surrounded by optional whitespace; any
trailing non-whitespace input is a parse failure, as is any other deviation
from the JSON grammar. -/
def jsonParse (s : String) : Option Json :=
  match parseVal (2 * s.length + 4) s.data with
  | some (v, rest) => if (skipWs rest).isEmpty then some v else none
  | none => none

/-- Fixed text standing for the engine-specific message of the exception
thrown by JSON.parse on malformed input. -/
def jsonErrorText : String := "Unexpected token in JSON"

/-- Response decoder of QBittorrentClient.request (src/index.ts line 113):
the parseResponse lambda maps the raw body text to the boolean true when it
is exactly the sentinel `Ok.`, and to JSON.parse of the text otherwise; a
JSON parse failure is an error with no recovery path.  The boolean result
is the same runtime value as the JSON literal true, so it is represented by
`Json.bool true`. -/
def decodeResponse (txt : String) : Except String Json :=
  if txt = "Ok." then Except.ok (Json.bool true)
  else
    match jsonParse txt with
    | some v => Except.ok v
    | none => Except.error jsonErrorText

/-! ## Error taxonomy

Every throw site of src/index.ts raises a generic Error; they are told
apart by the taxonomy of the failure (and by their message strings, which
are carried verbatim).  `transport` stands for an exception of the HTTP
layer (ofetch) propagating unwrapped, `requestFailure` for the uniform
wrapper built in the catch block of QBittorrentClient.request. -/

inductive QErr where
  | validation (msg : String) : QErr
  | unsupportedPayload (msg : String) : QErr
  | auth (msg : String) : QErr
  | requestFailure (msg : String) : QErr
  | transport (msg : String) : QErr
deriving DecidableEq

/-- Discriminator: is this failure the uniform request wrapper? -/
def QErr.isRequestFailure : QErr → Bool
  | .requestFailure _ => true
  | _ => false

/-! ## Client state and session management -/

/-- The mutable fields of QBittorrentClient (src/index.ts lines 72-75). -/
structure ClientState where
  baseUrl : String
  username : Option String
  password : Option String
  sid : Option String
deriving DecidableEq

/-- Replace the sid field, as the assignments `this.sid = ...` do. -/
def setSid (st : ClientState) (v : Option String) : ClientState :=
  ⟨st.baseUrl, st.username, st.password, v⟩

/-- JavaScript truthiness of an optional string field: undefined and the
empty string are falsy. -/
def truthyOpt : Option String → Bool
  | none => false
  | some s => s != ""

/-- The login HTTP response as the code reads it: the (ofetch-parsed) body,
and the value of `response.headers?.get('set-cookie')` when available. -/
structure LoginResponse where
  body : String
  setCookie : Option String

/-- Outcome of the unguarded ofetch call made by login: either a response,
or a transport exception with its text. -/
inductive LoginTransport where
  | ok (resp : LoginResponse) : LoginTransport
  | err (msg : String) : LoginTransport

/-- Outcome of the ofetch call made inside the try block of request: the
raw body text handed to parseResponse, or a transport exception. -/
inductive TransportResult where
  | ok (body : String) : TransportResult
  | err (msg : String) : TransportResult

/-- Match of the regular expression SID=([^;]+) at the head of the input:
succeeds when the input starts with `SID=` followed by at least one
character other than a semicolon, capturing the maximal such run. -/
def sidAt : List Char → Option String
  | 'S' :: 'I' :: 'D' :: '=' :: c :: r =>
    if c = ';' then none
    else some (String.mk (c :: r.takeWhile (fun d => d != ';')))
  | _ => none

/-- Leftmost match of SID=([^;]+) in the input, as `.match(/SID=([^;]+)/)`
computes it: try each start position from the left. -/
def sidScan : List Char → Option String
  | [] => none
  | c :: rest =>
    match sidAt (c :: rest) with
    | some t => some t
    | none => sidScan rest

/-- Session-token extraction from the optional set-cookie header
(src/index.ts line 140): `headers?.get('set-cookie')?.match(/SID=([^;]+)/)?.[1]`. -/
def extractSID : Option String → Option String
  | none => none
  | some s => sidScan s.data

/-- QBittorrentClient.login (src/index.ts lines 125-145).  The ofetch call
is unguarded, so a transport exception propagates as-is and the state is
untouched.  On a response whose body is the literal `Fails.` the method
throws `Login failed` before touching this.sid.  Otherwise this.sid is
overwritten with the extraction result, and if that left it falsy the
method throws the extraction failure. -/
def login (st : ClientState) (tr : LoginTransport) : ClientState × Except QErr Unit :=
  match tr with
  | .err m => (st, Except.error (QErr.transport m))
  | .ok resp =>
    if resp.body = "Fails." then (st, Except.error (QErr.auth "Login failed"))
    else
      let st1 := setSid st (extractSID resp.setCookie)
      if truthyOpt st1.sid then (st1, Except.ok ())
      else (st1, Except.error (QErr.auth "Failed to extract session ID (SID)."))

/-- The lazy-login condition of request (src/index.ts line 99):
`!this.sid && this.username && this.password` under JS truthiness. -/
def lazyCond (st : ClientState) : Bool :=
  !truthyOpt st.sid && truthyOpt st.username && truthyOpt st.password

/-- The authenticate-if-needed step at the top of request: runs login when
the lazy-login condition holds, otherwise leaves the state unchanged. -/
def lazyLoginStep (st : ClientState) (ltr : LoginTransport) :
    ClientState × Except QErr Unit :=
  if lazyCond st then login st ltr else (st, Except.ok ())

/-- QBittorrentClient.request (src/index.ts lines 95-118).  The method and
endpoint strings and the request body do not influence the session state or
the shape of the result, so they are not parameters of the embedding.  An
exception thrown by the lazy login propagates unwrapped (the login call is
outside the try block).  Inside the try block, both a transport exception
and a JSON parse failure of parseResponse are caught and re-thrown as
`Request failed: ` followed by the original error text. -/
def request (st : ClientState) (ltr : LoginTransport) (mtr : TransportResult) :
    ClientState × Except QErr Json :=
  match lazyLoginStep st ltr with
  | (st1, Except.error e) => (st1, Except.error e)
  | (st1, Except.ok _) =>
    match mtr with
    | .err m => (st1, Except.error (QErr.requestFailure ("Request failed: " ++ m)))
    | .ok body =>
      match decodeResponse body with
      | Except.ok v => (st1, Except.ok v)
      | Except.error pm =>
        (st1, Except.error (QErr.requestFailure ("Request failed: " ++ pm)))

/-- QBittorrentClient.logout (src/index.ts lines 151-154): await the
request to auth/logout, then set this.sid to undefined.  If the request
throws, the assignment is never reached and the exception propagates. -/
def logout (st : ClientState) (ltr : LoginTransport) (mtr : TransportResult) :
    ClientState × Except QErr Unit :=
  match request st ltr mtr with
  | (st1, Except.ok _) => (setSid st1 none, Except.ok ())
  | (st1, Except.error e) => (st1, Except.error e)

/-! ## Payload encoder (torrents/add multipart builder)

Byte buffers are modelled as lists of byte values.  A Blob carries its
effective bytes and its media type; a BlobPart is one constituent handed to
the Blob constructor (a text string contributes its UTF-8 bytes, an
ArrayBuffer contributes its bytes, a nested Blob contributes its bytes). -/

/-- UTF-8 encoding of one character, as a Blob applies to string parts. -/
def utf8Bytes (c : Char) : List Nat :=
  let n := c.toNat
  if n < 128 then [n]
  else if n < 2048 then [192 + n / 64, 128 + n % 64]
  else if n < 65536 then [224 + n / 4096, 128 + (n / 64) % 64, 128 + n % 64]
  else [240 + n / 262144, 128 + (n / 4096) % 64, 128 + (n / 64) % 64, 128 + n % 64]

/-- UTF-8 bytes of a string. -/
def strBytes (s : String) : List Nat :=
  s.data.foldr (fun c acc => utf8Bytes c ++ acc) []

/-- A Blob: effective bytes together with the declared media type. -/
structure Blob where
  bytes : List Nat
  blobType : String
deriving DecidableEq

/-- One constituent passed to the Blob constructor. -/
inductive BlobPart where
  | str (s : String) : BlobPart
  | arrayBuf (bs : List Nat) : BlobPart
  | blob (b : Blob) : BlobPart
deriving DecidableEq

/-- Effective bytes contributed by one BlobPart. -/
def BlobPart.partBytes : BlobPart → List Nat
  | .str s => strBytes s
  | .arrayBuf bs => bs
  | .blob b => b.bytes

/-- Model of `new Blob(parts, { type: t })`: concatenation of the parts'
bytes under the given media type. -/
def mkBlob (parts : List BlobPart) (t : String) : Blob :=
  ⟨(parts.map BlobPart.partBytes).flatten, t⟩

/-- Runtime shape of the buffer field of a torrent file unit, as the branch
chain of addTorrent distinguishes it: a plain text string, a Node Buffer, an
ArrayBuffer, a SharedArrayBuffer, or any other value (`other`). -/
inductive JsBuffer where
  | strVal (s : String) : JsBuffer
  | nodeBuffer (bs : List Nat) : JsBuffer
  | arrayBuffer (bs : List Nat) : JsBuffer
  | sharedArrayBuffer (bs : List Nat) : JsBuffer
  | other : JsBuffer
deriving DecidableEq

/-- The buffer-normalization branch chain of addTorrent (src/index.ts lines
196-206), producing the BlobPart stored in the local `buffer` variable:
a string is used as-is; a Node Buffer is copied via
`Uint8Array.from(b).buffer` into an ArrayBuffer; an ArrayBuffer is used
as-is; a SharedArrayBuffer is copied via `new Blob([new Uint8Array(b)],
{ type })`; anything else throws `Unsupported buffer type`. -/
def normalizePart (b : JsBuffer) (ct : String) : Except QErr BlobPart :=
  match b with
  | .strVal s => Except.ok (BlobPart.str s)
  | .nodeBuffer bs => Except.ok (BlobPart.arrayBuf bs)
  | .arrayBuffer bs => Except.ok (BlobPart.arrayBuf bs)
  | .sharedArrayBuffer bs => Except.ok (BlobPart.blob (mkBlob [BlobPart.arrayBuf bs] ct))
  | .other => Except.error (QErr.unsupportedPayload "Unsupported buffer type")

/-- The Blob built for one torrent file unit (src/index.ts line 208):
`new Blob([buffer], { type: torrent.content_type })` applied to the
normalized BlobPart. -/
def torrentBlob (b : JsBuffer) (ct : String) : Except QErr Blob :=
  match normalizePart b ct with
  | Except.ok p => Except.ok (mkBlob [p] ct)
  | Except.error e => Except.error e

/-- A torrent file unit (the TorrentFile interface of src/index.ts). -/
structure TorrentFile where
  filename : Option String
  name : Option String
  buffer : JsBuffer
  content_type : String
deriving DecidableEq

/-- A TS field typed `T | T[]`: either a single value or an array. -/
inductive OneOrMany (α : Type) where
  | one (a : α) : OneOrMany α
  | many (l : List α) : OneOrMany α
deriving DecidableEq

/-- The array the code folds over: `Array.isArray(x) ? x : [x]`. -/
def OneOrMany.toArray {α : Type} : OneOrMany α → List α
  | .one a => [a]
  | .many l => l

/-- The TorrentAddParameters interface of src/index.ts. -/
structure TorrentAddParameters where
  urls : Option (OneOrMany String)
  torrents : Option (OneOrMany TorrentFile)
  savepath : Option String
  category : Option String
  paused : Option Bool
  skip_checking : Option Bool
  rename : Option String
  upLimit : Option Int
  dlLimit : Option Int
deriving DecidableEq

/-- One entry of the multipart form: a plain text field, or a file field
carrying a Blob and a filename. -/
inductive FormEntry where
  | text (fieldName value : String) : FormEntry
  | file (fieldName : String) (b : Blob) (filename : String) : FormEntry
deriving DecidableEq

/-- The validation guard of addTorrent (src/index.ts line 179):
`!params.torrents || (Array.isArray(params.torrents) &&
params.torrents.length === 0)`.  A single TorrentFile object and a
non-empty array are truthy and pass; the urls field is never consulted. -/
def torrentsMissing : Option (OneOrMany TorrentFile) → Bool
  | none => true
  | some (.one _) => false
  | some (.many l) => l.isEmpty

/-- The urls block of addTorrent (src/index.ts lines 185-188): under
`if (params.urls)` (truthiness: a single empty string is falsy, any array
is truthy), a list is newline-joined into a single `urls` text field. -/
def urlsEntries : Option (OneOrMany String) → List FormEntry
  | none => []
  | some (.one s) => if s = "" then [] else [FormEntry.text "urls" s]
  | some (.many l) => [FormEntry.text "urls" (String.intercalate "\n" l)]

/-- Filename attached to a file field (src/index.ts line 209):
`torrent.filename || ` the fallback `torrent_<index>.torrent`; an absent or
empty (falsy) filename selects the fallback. -/
def fileNameFor (t : TorrentFile) (index : Nat) : String :=
  match t.filename with
  | some s => if s = "" then "torrent_" ++ toString index ++ ".torrent" else s
  | none => "torrent_" ++ toString index ++ ".torrent"

/-- The torrents forEach loop of addTorrent (src/index.ts lines 193-210),
carrying the zero-based index: each unit's buffer is normalized (the first
unsupported unit aborts the whole call), wrapped into a Blob with the
unit's content type, and appended as a file field named `torrents`. -/
def torrentEntriesAux : Nat → List TorrentFile → Except QErr (List FormEntry)
  | _, [] => Except.ok []
  | index, t :: rest =>
    match torrentBlob t.buffer t.content_type with
    | Except.error e => Except.error e
    | Except.ok b =>
      match torrentEntriesAux (index + 1) rest with
      | Except.error e => Except.error e
      | Except.ok es => Except.ok (FormEntry.file "torrents" b (fileNameFor t index) :: es)

/-- A scalar optional string field (src/index.ts lines 214-218): appended
under `if (params.x)`, so only a present, non-empty string yields a field. -/
def optStrEntry (fieldName : String) : Option String → List FormEntry
  | some s => if s = "" then [] else [FormEntry.text fieldName s]
  | none => []

/-- A scalar optional boolean field (src/index.ts lines 216-217): appended
stringified under `if (params.x)`, so only the value true yields a field. -/
def optBoolEntry (fieldName : String) : Option Bool → List FormEntry
  | some true => [FormEntry.text fieldName "true"]
  | some false => []
  | none => []

/-- A scalar optional numeric field (src/index.ts lines 219-220): appended
stringified under `if (params.x)`, so zero (falsy) yields no field. -/
def optIntEntry (fieldName : String) : Option Int → List FormEntry
  | some n => if n = 0 then [] else [FormEntry.text fieldName (toString n)]
  | none => []

/-- The scalar tail of addTorrent (src/index.ts lines 214-220), in source
order. -/
def scalarEntries (p : TorrentAddParameters) : List FormEntry :=
  optStrEntry "savepath" p.savepath ++
  optStrEntry "category" p.category ++
  optBoolEntry "paused" p.paused ++
  optBoolEntry "skip_checking" p.skip_checking ++
  optStrEntry "rename" p.rename ++
  optIntEntry "upLimit" p.upLimit ++
  optIntEntry "dlLimit" p.dlLimit

/-- QBittorrentClient.addTorrent up to the network call (src/index.ts lines
178-222): the validation guard, then the FormData built from the urls
block, the torrents loop and the scalar tail, in append order.  The
returned form is what the method passes to request. -/
def addTorrent (p : TorrentAddParameters) : Except QErr (List FormEntry) :=
  if torrentsMissing p.torrents then
    Except.error (QErr.validation "At least one torrent or URL must be provided.")
  else
    match p.torrents with
    | none => Except.ok (urlsEntries p.urls ++ scalarEntries p)
    | some ts =>
      match torrentEntriesAux 0 ts.toArray with
      | Except.error e => Except.error e
      | Except.ok tE => Except.ok (urlsEntries p.urls ++ tE ++ scalarEntries p)

/-! ## Query encoder (torrents/info) -/

/-- The filter literal union of TorrentInfoParameters. -/
inductive TFilter where
  | all : TFilter
  | downloading : TFilter
  | seeding : TFilter
  | completed : TFilter
  | paused : TFilter
  | active : TFilter
  | inactive : TFilter
deriving DecidableEq

/-- The string value of a filter literal. -/
def TFilter.toStr : TFilter → String
  | .all => "all"
  | .downloading => "downloading"
  | .seeding => "seeding"
  | .completed => "completed"
  | .paused => "paused"
  | .active => "active"
  | .inactive => "inactive"

/-- The TorrentInfoParameters interface of src/index.ts. -/
structure TorrentInfoParameters where
  filter : Option TFilter
  category : Option String
  sort : Option String
  reverse : Option Bool
  limit : Option Int
  offset : Option Int
  hashes : Option (OneOrMany String)
deriving DecidableEq

/-- A query parameter appended for an optional string field under
`if (params.x)`: only a present, non-empty string yields a parameter. -/
def optStrQ (paramName : String) : Option String → List (String × String)
  | some s => if s = "" then [] else [(paramName, s)]
  | none => []

/-- The filter parameter (src/index.ts line 261): the filter literals are
all non-empty strings, so a present filter is always appended. -/
def filterQ : Option TFilter → List (String × String)
  | some f => [("filter", f.toStr)]
  | none => []

/-- The reverse parameter (src/index.ts line 264): appended stringified
under `if (params.reverse)`, so only the value true yields a parameter. -/
def reverseQ : Option Bool → List (String × String)
  | some true => [("reverse", "true")]
  | some false => []
  | none => []

/-- A numeric query parameter (src/index.ts lines 265-266): appended
stringified under `if (params.x)`, so zero (falsy) yields no parameter. -/
def intQ (paramName : String) : Option Int → List (String × String)
  | some n => if n = 0 then [] else [(paramName, toString n)]
  | none => []

/-- The hashes block of getTorrentInfo (src/index.ts lines 267-270): under
`if (params.hashes)`, an array is joined with `|` into a single parameter;
a single non-empty string is passed through; a single empty string is
falsy and skipped (any array is truthy). -/
def hashesQ : Option (OneOrMany String) → List (String × String)
  | none => []
  | some (.one s) => if s = "" then [] else [("hashes", s)]
  | some (.many l) => [("hashes", String.intercalate "|" l)]

/-- The query built by QBittorrentClient.getTorrentInfo (src/index.ts lines
259-273), as the list of appended URLSearchParams pairs in source order. -/
def torrentInfoQuery (p : TorrentInfoParameters) : List (String × String) :=
  filterQ p.filter ++
  optStrQ "category" p.category ++
  optStrQ "sort" p.sort ++
  reverseQ p.reverse ++
  intQ "limit" p.limit ++
  intQ "offset" p.offset ++
  hashesQ p.hashes

/-! ## Helper observations and concrete inputs used by the theorems -/

/-- Field name of a multipart form entry. -/
def FormEntry.entryName : FormEntry → String
  | .text n _ => n
  | .file n _ _ => n

/-- Case-sensitive substring containment on strings. -/
def containsSub (hay pat : String) : Bool :=
  hay.data.tails.any (fun t => pat.data.isPrefixOf t)

/-- A client holding credentials and a live session token. -/
def loggedInState : ClientState :=
  ⟨"http://localhost:8080", some "admin", some "pass", some "tok123"⟩

/-- A client holding credentials and a previous session token, about to
re-login. -/
def staleState : ClientState :=
  ⟨"http://localhost:8080", some "admin", some "pass", some "oldtoken"⟩

/-- A client holding credentials but no session token, so the lazy-login
condition of request holds. -/
def credsNoSidState : ClientState :=
  ⟨"http://localhost:8080", some "admin", some "pass", none⟩

/-- The usual media type of a torrent upload. -/
def torrentCT : String := "application/x-bittorrent"

/-- Blob produced for a one-character text buffer `d`. -/
def dBlob : Blob := ⟨[100], torrentCT⟩

/-- Blob produced for a one-character text buffer `e`. -/
def eBlob : Blob := ⟨[101], torrentCT⟩

/-- An add request carrying one magnet URL and no torrent files — the
README's own usage example for addTorrent. -/
def urlOnlyRequest : TorrentAddParameters :=
  ⟨some (OneOrMany.one "magnet:?xt=urn:btih:example"), none, none, none, none,
    none, none, none, none⟩

/-- An add request with one torrent file and the paused flag present with
value false. -/
def pausedFalseRequest : TorrentAddParameters :=
  ⟨none, some (OneOrMany.one ⟨none, none, JsBuffer.strVal "d", torrentCT⟩), none,
    none, some false, none, none, none, none⟩

/-- An add request with one torrent file and the paused flag present with
value true. -/
def pausedTrueRequest : TorrentAddParameters :=
  ⟨none, some (OneOrMany.one ⟨none, none, JsBuffer.strVal "d", torrentCT⟩), none,
    none, some true, none, none, none, none⟩

/-- The form addTorrent builds for pausedTrueRequest. -/
def pausedTrueForm : List FormEntry :=
  [FormEntry.file "torrents" dBlob "torrent_0.torrent", FormEntry.text "paused" "true"]

/-- A torrent file unit whose filename field is present but empty. -/
def emptyNameFile : TorrentFile := ⟨some "", none, JsBuffer.strVal "d", torrentCT⟩

/-- An add request carrying only emptyNameFile. -/
def emptyFilenameRequest : TorrentAddParameters :=
  ⟨none, some (OneOrMany.one emptyNameFile), none, none, none, none, none, none, none⟩

/-- Two torrent file units, neither carrying a filename. -/
def twoNoNameFiles : List TorrentFile :=
  [⟨none, none, JsBuffer.strVal "d", torrentCT⟩,
   ⟨none, none, JsBuffer.strVal "e", torrentCT⟩]

/-- An add request carrying the two filename-less units. -/
def twoNoNameRequest : TorrentAddParameters :=
  ⟨none, some (OneOrMany.many twoNoNameFiles), none, none, none, none, none, none, none⟩

/-- The entries the torrents loop builds for twoNoNameFiles. -/
def twoNoNameEntries : List FormEntry :=
  [FormEntry.file "torrents" dBlob "torrent_0.torrent",
   FormEntry.file "torrents" eBlob "torrent_1.torrent"]

/-- The torrents/info query of the specification example: filter
downloading, hashes the list a, b. -/
def downloadingABQuery : TorrentInfoParameters :=
  ⟨some TFilter.downloading, none, none, none, none, none,
    some (OneOrMany.many ["a", "b"])⟩

/-- A torrents/info query with no filter and the hash list a, b. -/
def noFilterABQuery : TorrentInfoParameters :=
  ⟨none, none, none, none, none, none, some (OneOrMany.many ["a", "b"])⟩

/-! ## Shared lemmas -/

/-- A head match of the SID pattern captures at least one character. -/
theorem sidAt_ne_empty (l : List Char) (t : String) (h : sidAt l = some t) : t ≠ "" := by
  unfold sidAt at h
  split at h
  · split at h
    · exact absurd h (by simp)
    · intro hE
      have hdata := congrArg String.data (Option.some.inj h)
      rw [congrArg String.data hE] at hdata
      simp at hdata
  · exact absurd h (by simp)

/-- The regex scan never captures an empty token. -/
theorem sidScan_ne_empty (l : List Char) (t : String) (h : sidScan l = some t) : t ≠ "" := by
  induction l with
  | nil => simp [sidScan] at h
  | cons c rest ih =>
    unfold sidScan at h
    cases hA : sidAt (c :: rest) with
    | some u =>
      rw [hA] at h
      exact Option.some.inj h ▸ sidAt_ne_empty _ _ hA
    | none =>
      rw [hA] at h
      exact ih h

/-- Session-token extraction never yields an empty token. -/
theorem extractSID_ne_empty (o : Option String) (t : String)
    (h : extractSID o = some t) : t ≠ "" := by
  cases o with
  | none => simp [extractSID] at h
  | some s => exact sidScan_ne_empty _ _ h

/-- Every entry built by the torrents loop is a file field named
`torrents`. -/
theorem torrentEntriesAux_entries (ts : List TorrentFile) :
    ∀ (n : Nat) (es : List FormEntry), torrentEntriesAux n ts = Except.ok es →
      ∀ e ∈ es, ∃ b fn, e = FormEntry.file "torrents" b fn := by
  induction ts with
  | nil =>
    intro n es h e he
    simp [torrentEntriesAux] at h
    subst h
    simp at he
  | cons t rest ih =>
    intro n es h e he
    unfold torrentEntriesAux at h
    cases hb : torrentBlob t.buffer t.content_type with
    | error err => rw [hb] at h; exact absurd h (by simp)
    | ok b =>
      rw [hb] at h
      cases hr : torrentEntriesAux (n + 1) rest with
      | error err => rw [hr] at h; exact absurd h (by simp)
      | ok es1 =>
        rw [hr] at h
        have hes : es = FormEntry.file "torrents" b (fileNameFor t n) :: es1 :=
          (Except.ok.inj h).symm
        subst hes
        rcases List.mem_cons.mp he with he1 | he1
        · exact ⟨b, fileNameFor t n, he1⟩
        · exact ih (n + 1) es1 hr e he1

/-- The torrents loop produces one entry per unit: the entry at each
zero-based position i is the file field of unit i, whose Blob is the unit's
normalized buffer and whose filename is computed at index n + i. -/
theorem torrentEntriesAux_spec (ts : List TorrentFile) :
    ∀ (n : Nat) (es : List FormEntry), torrentEntriesAux n ts = Except.ok es →
      es.length = ts.length ∧
      ∀ (i : Nat) (t : TorrentFile), ts[i]? = some t →
        ∃ b : Blob, torrentBlob t.buffer t.content_type = Except.ok b ∧
          es[i]? = some (FormEntry.file "torrents" b (fileNameFor t (n + i))) := by
  induction ts with
  | nil =>
    intro n es h
    simp [torrentEntriesAux] at h
    subst h
    simp
  | cons t rest ih =>
    intro n es h
    unfold torrentEntriesAux at h
    cases hb : torrentBlob t.buffer t.content_type with
    | error err => rw [hb] at h; exact absurd h (by simp)
    | ok b =>
      rw [hb] at h
      cases hr : torrentEntriesAux (n + 1) rest with
      | error err => rw [hr] at h; exact absurd h (by simp)
      | ok es1 =>
        rw [hr] at h
        have hes : es = FormEntry.file "torrents" b (fileNameFor t n) :: es1 :=
          (Except.ok.inj h).symm
        subst hes
        obtain ⟨hlen, hspec⟩ := ih (n + 1) es1 hr
        refine ⟨by simp [hlen], ?_⟩
        intro i u hu
        cases i with
        | zero =>
          simp at hu
          subst hu
          exact ⟨b, hb, by simp⟩
        | succ j =>
          simp at hu
          obtain ⟨b1, hb1, he1⟩ := hspec j u (by simpa using hu)
          refine ⟨b1, hb1, ?_⟩
          simpa [Nat.add_assoc, Nat.add_comm 1 j] using he1

/-- Membership of a text field among the optional-string scalar entries. -/
theorem text_mem_optStrEntry {f nm v : String} {o : Option String} :
    FormEntry.text nm v ∈ optStrEntry f o ↔ (nm = f ∧ o = some v ∧ ¬ v = "") := by
  cases o with
  | none => simp [optStrEntry]
  | some s =>
    by_cases hs : s = ""
    · subst hs
      simp only [optStrEntry, if_pos rfl]
      constructor
      · intro h; simp at h
      · rintro ⟨_, hsv, hv⟩
        exact absurd (Option.some.inj hsv).symm hv
    · simp only [optStrEntry, if_neg hs, List.mem_singleton, FormEntry.text.injEq,
        Option.some.injEq]
      constructor
      · rintro ⟨hn, hv⟩; exact ⟨hn, hv.symm ▸ rfl, hv ▸ hs⟩
      · rintro ⟨hn, hsv, _⟩; exact ⟨hn, hsv.symm⟩

/-- Membership of a text field among the optional-boolean scalar entries. -/
theorem text_mem_optBoolEntry {f nm v : String} {o : Option Bool} :
    FormEntry.text nm v ∈ optBoolEntry f o ↔ (nm = f ∧ o = some true ∧ v = "true") := by
  cases o with
  | none => simp [optBoolEntry]
  | some b => cases b <;> simp [optBoolEntry, FormEntry.text.injEq, And.comm]

/-- Membership of a text field among the optional-numeric scalar entries. -/
theorem text_mem_optIntEntry {f nm v : String} {o : Option Int} :
    FormEntry.text nm v ∈ optIntEntry f o ↔
      (nm = f ∧ ∃ n : Int, o = some n ∧ ¬ n = 0 ∧ v = toString n) := by
  cases o with
  | none => simp [optIntEntry]
  | some n =>
    by_cases hn : n = 0
    · subst hn
      simp [optIntEntry]
    · simp only [optIntEntry, if_neg hn, List.mem_singleton, FormEntry.text.injEq,
        Option.some.injEq]
      constructor
      · rintro ⟨hf, hv⟩; exact ⟨hf, n, rfl, hn, hv⟩
      · rintro ⟨hf, m, hm, _, hv⟩; exact ⟨hf, hm ▸ hv⟩

/-- Every entry of the urls block is a text field named `urls`. -/
theorem mem_urlsEntries_name {u : Option (OneOrMany String)} {e : FormEntry}
    (h : e ∈ urlsEntries u) : ∃ v, e = FormEntry.text "urls" v := by
  match u with
  | none => simp [urlsEntries] at h
  | some (.one s) =>
    by_cases hs : s = ""
    · subst hs; simp [urlsEntries] at h
    · simp [urlsEntries, hs] at h
      exact ⟨s, h⟩
  | some (.many l) =>
    simp [urlsEntries] at h
    exact ⟨String.intercalate "\n" l, h⟩

/-- Names appearing in each optional-string query segment. -/
theorem mem_optStrQ_name {f : String} {o : Option String} {p : String × String}
    (h : p ∈ optStrQ f o) : p.1 = f := by
  cases o with
  | none => simp [optStrQ] at h
  | some s =>
    by_cases hs : s = ""
    · subst hs; simp [optStrQ] at h
    · simp [optStrQ, hs] at h
      rw [h]

/-- Names appearing in the filter query segment. -/
theorem mem_filterQ_name {o : Option TFilter} {p : String × String}
    (h : p ∈ filterQ o) : p.1 = "filter" := by
  cases o with
  | none => simp [filterQ] at h
  | some f => simp [filterQ] at h; rw [h]

/-- Names appearing in the reverse query segment. -/
theorem mem_reverseQ_name {o : Option Bool} {p : String × String}
    (h : p ∈ reverseQ o) : p.1 = "reverse" := by
  cases o with
  | none => simp [reverseQ] at h
  | some b =>
    cases b
    · simp [reverseQ] at h
    · simp [reverseQ] at h; rw [h]

/-- Names appearing in each numeric query segment. -/
theorem mem_intQ_name {f : String} {o : Option Int} {p : String × String}
    (h : p ∈ intQ f o) : p.1 = f := by
  cases o with
  | none => simp [intQ] at h
  | some n =>
    by_cases hn : n = 0
    · subst hn; simp [intQ] at h
    · simp [intQ, hn] at h
      rw [h]

/-- Names appearing in the hashes query segment. -/
theorem mem_hashesQ_name {o : Option (OneOrMany String)} {p : String × String}
    (h : p ∈ hashesQ o) : p.1 = "hashes" := by
  match o with
  | none => simp [hashesQ] at h
  | some (.one s) =>
    by_cases hs : s = ""
    · subst hs; simp [hashesQ] at h
    · simp [hashesQ, hs] at h
      rw [h]
  | some (.many l) => simp [hashesQ] at h; rw [h]

/-! ## Claims -/

/-- C1: the validation guard of addTorrent consults only the torrents
field, so the README's own URL-only request — one magnet URL, torrents
absent — is rejected with the validation error before any encoding or
network work, although the claim (and the error message itself) says a
request carrying at least one URL passes validation. -/
theorem addTorrent_rejects_url_only_request :
    addTorrent urlOnlyRequest =
      Except.error (QErr.validation "At least one torrent or URL must be provided.") ∧
    urlOnlyRequest.urls = some (OneOrMany.one "magnet:?xt=urn:btih:example") :=
  ⟨rfl, rfl⟩

/-- C10: whenever login reaches the token-extraction failure (response body
not the rejection sentinel, no SID capture in the set-cookie header), the
sid field has already been overwritten with the failed extraction result,
so after the call the session token is unset whatever token was held
before, and the distinct extraction-failure error is raised. -/
theorem login_extraction_failure_clears_sid (st : ClientState) (resp : LoginResponse)
    (hbody : resp.body ≠ "Fails.") (hext : extractSID resp.setCookie = none) :
    login st (LoginTransport.ok resp) =
      (setSid st none, Except.error (QErr.auth "Failed to extract session ID (SID).")) := by
  simp [login, hbody, hext, truthyOpt, setSid]

/-- C10 witness: a client holding the token oldtoken re-logs in against a
response whose set-cookie header carries no SID pattern; the held token is
destroyed. -/
theorem login_extraction_failure_clears_sid_witness :
    login staleState (LoginTransport.ok ⟨"", some "no session cookie here"⟩) =
      (setSid staleState none, Except.error (QErr.auth "Failed to extract session ID (SID).")) ∧
    staleState.sid = some "oldtoken" ∧ (setSid staleState none).sid = none :=
  ⟨login_extraction_failure_clears_sid staleState ⟨"", some "no session cookie here"⟩
      (by decide) (by decide), rfl, rfl⟩

/-- C3 counterexample: against the rejection body `Fails.`, login throws
before touching this.sid, so a previously-held session token is left in
place — the token is left unchanged, not left unset. -/
theorem login_fails_body_keeps_previous_sid :
    login staleState (LoginTransport.ok ⟨"Fails.", some "SID=newtoken;"⟩) =
      (staleState, Except.error (QErr.auth "Login failed")) ∧
    staleState.sid = some "oldtoken" :=
  ⟨rfl, rfl⟩

/-- C3 (amended): login raises an authentication failure exactly when the
response body is the literal `Fails.` — in which case the session token is
left unchanged (so still unset when it was unset before the call) — or
when no SID token can be extracted from the set-cookie header; the second
condition carries its own distinct error message. -/
theorem login_auth_failure_characterization :
    (∀ (st : ClientState) (resp : LoginResponse),
        (∃ m, (login st (LoginTransport.ok resp)).2 = Except.error (QErr.auth m)) ↔
          (resp.body = "Fails." ∨ extractSID resp.setCookie = none)) ∧
    (∀ (st : ClientState) (resp : LoginResponse), resp.body = "Fails." →
        login st (LoginTransport.ok resp) = (st, Except.error (QErr.auth "Login failed"))) ∧
    (∀ (st : ClientState) (resp : LoginResponse), resp.body ≠ "Fails." →
        extractSID resp.setCookie = none →
        login st (LoginTransport.ok resp) =
          (setSid st none, Except.error (QErr.auth "Failed to extract session ID (SID)."))) ∧
    "Login failed" ≠ "Failed to extract session ID (SID)." := by
  refine ⟨?_, ?_, ?_, by decide⟩
  · intro st resp
    constructor
    · rintro ⟨m, hm⟩
      by_cases hb : resp.body = "Fails."
      · exact Or.inl hb
      · right
        cases hx : extractSID resp.setCookie with
        | none => rfl
        | some tok =>
          exfalso
          have hne := extractSID_ne_empty _ _ hx
          simp [login, hb, hx, truthyOpt, setSid, hne] at hm
    · rintro (hb | hx)
      · exact ⟨"Login failed", by simp [login, hb]⟩
      · by_cases hb : resp.body = "Fails."
        · exact ⟨"Login failed", by simp [login, hb]⟩
        · exact ⟨"Failed to extract session ID (SID).",
            by simp [login, hb, hx, truthyOpt, setSid]⟩
  · intro st resp hb
    simp [login, hb]
  · intro st resp hb hx
    simp [login, hb, hx, truthyOpt, setSid]

/-- C3 witness: the characterization applied at concrete inputs — a
rejection body yields an authentication failure, and a cookie with no SID
pattern yields the distinct extraction failure with the sid overwritten. -/
theorem login_auth_failure_characterization_witness :
    (∃ m, (login credsNoSidState (LoginTransport.ok ⟨"Fails.", none⟩)).2 =
        Except.error (QErr.auth m)) ∧
    login loggedInState (LoginTransport.ok ⟨"welcome", some "theme=dark; path=/"⟩) =
      (setSid loggedInState none,
        Except.error (QErr.auth "Failed to extract session ID (SID).")) := by
  constructor
  · exact (login_auth_failure_characterization.1 credsNoSidState ⟨"Fails.", none⟩).mpr
      (Or.inl rfl)
  · exact login_auth_failure_characterization.2.2.1 loggedInState
      ⟨"welcome", some "theme=dark; path=/"⟩ (by decide) (by decide)

/-- C2 counterexample: a logout whose server response body is `Fails.` — a
failure body that is neither the success sentinel nor valid JSON — makes
the request throw before the clearing assignment is reached, so the held
session token survives the logout call. -/
theorem logout_keeps_sid_on_undecodable_body :
    logout loggedInState (LoginTransport.err "unused") (TransportResult.ok "Fails.") =
      (loggedInState,
        Except.error (QErr.requestFailure ("Request failed: " ++ jsonErrorText))) ∧
    loggedInState.sid = some "tok123" :=
  ⟨rfl, rfl⟩

/-- C2 (amended): whenever logout returns normally the held session token
is cleared, whatever value the response decoded to; in particular any
response body that decodes (the success sentinel or any valid JSON,
including a JSON failure body) makes a logout from a live session return
normally with the token cleared.  When the request throws — transport
fault, or a body that is neither `Ok.` nor valid JSON — the exception
propagates and the token is left as it was. -/
theorem logout_clears_sid_characterization :
    (∀ (st : ClientState) (ltr : LoginTransport) (mtr : TransportResult)
        (st1 : ClientState), logout st ltr mtr = (st1, Except.ok ()) → st1.sid = none) ∧
    (∀ (st : ClientState) (ltr : LoginTransport) (body : String) (v : Json),
        truthyOpt st.sid = true → decodeResponse body = Except.ok v →
        logout st ltr (TransportResult.ok body) = (setSid st none, Except.ok ())) := by
  constructor
  · intro st ltr mtr st1 h
    unfold logout at h
    cases hr : request st ltr mtr with
    | mk st2 r =>
      rw [hr] at h
      cases r with
      | ok v =>
        have : setSid st2 none = st1 := congrArg Prod.fst h
        rw [← this]
        rfl
      | error e => exact absurd (congrArg Prod.snd h) (by simp)
  · intro st ltr body v hsid hdec
    have hlc : lazyCond st = false := by simp [lazyCond, hsid]
    simp [logout, request, lazyLoginStep, hlc, hdec]

/-- C2 witness: a logout from a live session against the success sentinel
returns normally with the token cleared, and the normal-return clause
applied to it confirms the cleared state. -/
theorem logout_clears_sid_characterization_witness :
    logout loggedInState (LoginTransport.err "unused") (TransportResult.ok "Ok.") =
      (setSid loggedInState none, Except.ok ()) ∧
    (setSid loggedInState none).sid = none := by
  have h2 := logout_clears_sid_characterization.2 loggedInState (LoginTransport.err "unused")
    "Ok." (Json.bool true) (by decide) rfl
  exact ⟨h2, logout_clears_sid_characterization.1 loggedInState (LoginTransport.err "unused")
    (TransportResult.ok "Ok.") (setSid loggedInState none) h2⟩

/-- C7 counterexample: with no session token held and credentials present,
request performs the lazy login outside its try block; a transport
exception raised there propagates to the caller unwrapped — it is not the
uniform request-failure wrapper. -/
theorem lazy_login_transport_error_reaches_caller :
    request credsNoSidState (LoginTransport.err "connect ECONNREFUSED")
        (TransportResult.ok "Ok.") =
      (credsNoSidState, Except.error (QErr.transport "connect ECONNREFUSED")) ∧
    QErr.isRequestFailure (QErr.transport "connect ECONNREFUSED") = false :=
  ⟨rfl, rfl⟩

/-- C7 (amended): a transport exception raised while issuing the
dispatched HTTP call itself is caught and re-raised as the uniform
request-failure wrapper carrying the original error text; but an exception
raised during the implicit lazy login — in particular a raw transport
error — propagates to the caller unwrapped. -/
theorem transport_errors_wrapped_characterization :
    (∀ (st st1 : ClientState) (ltr : LoginTransport) (m : String),
        lazyLoginStep st ltr = (st1, Except.ok ()) →
        request st ltr (TransportResult.err m) =
          (st1, Except.error (QErr.requestFailure ("Request failed: " ++ m)))) ∧
    (∀ (st st1 : ClientState) (ltr : LoginTransport) (e : QErr) (mtr : TransportResult),
        lazyLoginStep st ltr = (st1, Except.error e) →
        request st ltr mtr = (st1, Except.error e)) ∧
    (∀ (st : ClientState) (m : String) (mtr : TransportResult),
        lazyCond st = true →
        request st (LoginTransport.err m) mtr = (st, Except.error (QErr.transport m))) := by
  refine ⟨?_, ?_, ?_⟩
  · intro st st1 ltr m h
    unfold request
    rw [h]
  · intro st st1 ltr e mtr h
    unfold request
    rw [h]
  · intro st m mtr hlc
    unfold request lazyLoginStep
    rw [hlc]
    simp [login]

/-- C7 witness: the wrapper applied after a successful (skipped) lazy
login, the unwrapped propagation of a lazy-login failure, and the raw
transport shape of the lazy-login fault, at concrete inputs. -/
theorem transport_errors_wrapped_characterization_witness :
    request loggedInState (LoginTransport.err "unused") (TransportResult.err "socket hang up") =
      (loggedInState, Except.error (QErr.requestFailure "Request failed: socket hang up")) ∧
    request credsNoSidState (LoginTransport.err "getaddrinfo ENOTFOUND")
        (TransportResult.ok "Ok.") =
      (credsNoSidState, Except.error (QErr.transport "getaddrinfo ENOTFOUND")) := by
  constructor
  · exact transport_errors_wrapped_characterization.1 loggedInState loggedInState
      (LoginTransport.err "unused") "socket hang up" rfl
  · exact transport_errors_wrapped_characterization.2.2 credsNoSidState
      "getaddrinfo ENOTFOUND" (TransportResult.ok "Ok.") (by decide)

/-- C4 counterexample: the unsupported-buffer error message of the source
is `Unsupported buffer type` with a capital U, so it does not contain the
string `unsupported buffer type` under case-sensitive containment. -/
theorem unsupported_buffer_message_capitalization :
    torrentBlob JsBuffer.other torrentCT =
      Except.error (QErr.unsupportedPayload "Unsupported buffer type") ∧
    containsSub "Unsupported buffer type" "unsupported buffer type" = false :=
  ⟨rfl, by decide⟩

/-- C4 (amended): the four supported buffer shapes — a text string (taken
as its UTF-8 bytes), a Node Buffer, an ArrayBuffer and a SharedArrayBuffer
carrying the same bytes — normalize to structurally equal multipart Blobs
with the declared content type and the same effective bytes; any other
buffer representation is a hard error carrying the message `Unsupported
buffer type` (which matches the claim's quoted text up to the case of its
first letter). -/
theorem buffer_normalization_characterization (ct : String) (bs : List Nat) (s : String)
    (hs : strBytes s = bs) :
    torrentBlob (JsBuffer.strVal s) ct = Except.ok ⟨bs, ct⟩ ∧
    torrentBlob (JsBuffer.nodeBuffer bs) ct = Except.ok ⟨bs, ct⟩ ∧
    torrentBlob (JsBuffer.arrayBuffer bs) ct = Except.ok ⟨bs, ct⟩ ∧
    torrentBlob (JsBuffer.sharedArrayBuffer bs) ct = Except.ok ⟨bs, ct⟩ ∧
    torrentBlob JsBuffer.other ct =
      Except.error (QErr.unsupportedPayload "Unsupported buffer type") ∧
    containsSub "Unsupported buffer type" "Unsupported buffer type" = true := by
  subst hs
  refine ⟨?_, ?_, ?_, ?_, rfl, by decide⟩ <;>
    simp [torrentBlob, normalizePart, mkBlob, BlobPart.partBytes]

/-- C4 witness: the characterization applied to the one-character content
`d`, whose UTF-8 bytes are the single byte 100. -/
theorem buffer_normalization_characterization_witness :
    strBytes "d" = [100] ∧
    torrentBlob (JsBuffer.strVal "d") torrentCT = Except.ok ⟨[100], torrentCT⟩ ∧
    torrentBlob (JsBuffer.sharedArrayBuffer [100]) torrentCT =
      Except.ok ⟨[100], torrentCT⟩ := by
  have h := buffer_normalization_characterization torrentCT [100] "d" (by decide)
  exact ⟨by decide, h.1, h.2.2.2.1⟩

/-- C6 counterexample: the body `true` is not the sentinel `Ok.`, yet the
decoder returns the boolean true for it (through the JSON path), so the
sentinel is not the only input decoding to the boolean true. -/
theorem decode_true_is_boolean_true :
    decodeResponse "true" = Except.ok (Json.bool true) ∧ "true" ≠ "Ok." :=
  ⟨rfl, by decide⟩

/-- C6 (amended): the decoder returns the boolean true for the literal
sentinel `Ok.`; every other text is handed to JSON parsing, whose result is
returned as-is — so a text parsing to the JSON literal true also yields the
boolean true — and malformed JSON propagates as a parse error with no
recovery path. -/
theorem decodeResponse_characterization :
    decodeResponse "Ok." = Except.ok (Json.bool true) ∧
    decodeResponse "\x7b\"a\":1\x7d" = Except.ok (Json.obj [("a", Json.num 1 0)]) ∧
    decodeResponse "not json" = Except.error jsonErrorText ∧
    (∀ (t : String) (v : Json), t ≠ "Ok." →
        (decodeResponse t = Except.ok v ↔ jsonParse t = some v)) ∧
    (∀ t : String, t ≠ "Ok." → jsonParse t = none →
        decodeResponse t = Except.error jsonErrorText) ∧
    (∀ t : String, jsonParse t = some (Json.bool true) →
        decodeResponse t = Except.ok (Json.bool true)) := by
  refine ⟨rfl, rfl, rfl, ?_, ?_, ?_⟩
  · intro t v ht
    unfold decodeResponse
    rw [if_neg ht]
    cases hp : jsonParse t with
    | none => simp
    | some w => simp
  · intro t ht hp
    unfold decodeResponse
    rw [if_neg ht, hp]
  · intro t hp
    by_cases ht : t = "Ok."
    · subst ht; rfl
    · unfold decodeResponse
      rw [if_neg ht, hp]

/-- C6 witness: the parse-relative clauses applied at concrete texts — the
body `false` decodes through the JSON path, and the body `nope` is a parse
failure. -/
theorem decodeResponse_characterization_witness :
    decodeResponse "false" = Except.ok (Json.bool false) ∧
    decodeResponse "nope" = Except.error jsonErrorText := by
  constructor
  · exact (decodeResponse_characterization.2.2.2.1 "false" (Json.bool false)
      (by decide)).mpr rfl
  · exact decodeResponse_characterization.2.2.2.2.1 "nope" (by decide) rfl

/-- Every parameter of the encoded torrents/info query lies in the segment
of its own name. -/
theorem mem_torrentInfoQuery_cases {q : TorrentInfoParameters} {p : String × String}
    (h : p ∈ torrentInfoQuery q) :
    (p.1 = "filter" ∧ p ∈ filterQ q.filter) ∨
    (p.1 = "category" ∧ p ∈ optStrQ "category" q.category) ∨
    (p.1 = "sort" ∧ p ∈ optStrQ "sort" q.sort) ∨
    (p.1 = "reverse" ∧ p ∈ reverseQ q.reverse) ∨
    (p.1 = "limit" ∧ p ∈ intQ "limit" q.limit) ∨
    (p.1 = "offset" ∧ p ∈ intQ "offset" q.offset) ∨
    (p.1 = "hashes" ∧ p ∈ hashesQ q.hashes) := by
  unfold torrentInfoQuery at h
  simp only [List.mem_append] at h
  rcases h with ((((((h | h) | h) | h) | h) | h) | h)
  · exact Or.inl ⟨mem_filterQ_name h, h⟩
  · exact Or.inr (Or.inl ⟨mem_optStrQ_name h, h⟩)
  · exact Or.inr (Or.inr (Or.inl ⟨mem_optStrQ_name h, h⟩))
  · exact Or.inr (Or.inr (Or.inr (Or.inl ⟨mem_reverseQ_name h, h⟩)))
  · exact Or.inr (Or.inr (Or.inr (Or.inr (Or.inl ⟨mem_intQ_name h, h⟩))))
  · exact Or.inr (Or.inr (Or.inr (Or.inr (Or.inr (Or.inl ⟨mem_intQ_name h, h⟩)))))
  · exact Or.inr (Or.inr (Or.inr (Or.inr (Or.inr (Or.inr ⟨mem_hashesQ_name h, h⟩)))))

/-- C8: the query encoded for filter downloading with the hash list a, b is
exactly the two parameters filter=downloading and hashes=a|b; in general a
present hash list contributes a single parameter joined with the vertical
bar, and an absent optional field contributes no parameter of its name. -/
theorem torrentInfoQuery_characterization :
    torrentInfoQuery downloadingABQuery = [("filter", "downloading"), ("hashes", "a|b")] ∧
    (∀ (q : TorrentInfoParameters) (l : List String),
        q.hashes = some (OneOrMany.many l) →
        ("hashes", String.intercalate "|" l) ∈ torrentInfoQuery q) ∧
    (∀ (q : TorrentInfoParameters) (v : String), q.filter = none →
        ("filter", v) ∉ torrentInfoQuery q) ∧
    (∀ (q : TorrentInfoParameters) (v : String), q.category = none →
        ("category", v) ∉ torrentInfoQuery q) ∧
    (∀ (q : TorrentInfoParameters) (v : String), q.sort = none →
        ("sort", v) ∉ torrentInfoQuery q) ∧
    (∀ (q : TorrentInfoParameters) (v : String), q.reverse = none →
        ("reverse", v) ∉ torrentInfoQuery q) ∧
    (∀ (q : TorrentInfoParameters) (v : String), q.limit = none →
        ("limit", v) ∉ torrentInfoQuery q) ∧
    (∀ (q : TorrentInfoParameters) (v : String), q.offset = none →
        ("offset", v) ∉ torrentInfoQuery q) ∧
    (∀ (q : TorrentInfoParameters) (v : String), q.hashes = none →
        ("hashes", v) ∉ torrentInfoQuery q) := by
  refine ⟨rfl, ?_, ?_, ?_, ?_, ?_, ?_, ?_, ?_⟩
  · intro q l h
    unfold torrentInfoQuery
    simp [List.mem_append, h, hashesQ]
  · intro q v h hmem
    rcases mem_torrentInfoQuery_cases hmem with ⟨_, hseg⟩ | ⟨hn, _⟩ | ⟨hn, _⟩ |
      ⟨hn, _⟩ | ⟨hn, _⟩ | ⟨hn, _⟩ | ⟨hn, _⟩
    · rw [h] at hseg; simp [filterQ] at hseg
    all_goals simp at hn
  · intro q v h hmem
    rcases mem_torrentInfoQuery_cases hmem with ⟨hn, _⟩ | ⟨_, hseg⟩ | ⟨hn, _⟩ |
      ⟨hn, _⟩ | ⟨hn, _⟩ | ⟨hn, _⟩ | ⟨hn, _⟩
    · simp at hn
    · rw [h] at hseg; simp [optStrQ] at hseg
    all_goals simp at hn
  · intro q v h hmem
    rcases mem_torrentInfoQuery_cases hmem with ⟨hn, _⟩ | ⟨hn, _⟩ | ⟨_, hseg⟩ |
      ⟨hn, _⟩ | ⟨hn, _⟩ | ⟨hn, _⟩ | ⟨hn, _⟩
    · simp at hn
    · simp at hn
    · rw [h] at hseg; simp [optStrQ] at hseg
    all_goals simp at hn
  · intro q v h hmem
    rcases mem_torrentInfoQuery_cases hmem with ⟨hn, _⟩ | ⟨hn, _⟩ | ⟨hn, _⟩ |
      ⟨_, hseg⟩ | ⟨hn, _⟩ | ⟨hn, _⟩ | ⟨hn, _⟩
    · simp at hn
    · simp at hn
    · simp at hn
    · rw [h] at hseg; simp [reverseQ] at hseg
    all_goals simp at hn
  · intro q v h hmem
    rcases mem_torrentInfoQuery_cases hmem with ⟨hn, _⟩ | ⟨hn, _⟩ | ⟨hn, _⟩ |
      ⟨hn, _⟩ | ⟨_, hseg⟩ | ⟨hn, _⟩ | ⟨hn, _⟩
    · simp at hn
    · simp at hn
    · simp at hn
    · simp at hn
    · rw [h] at hseg; simp [intQ] at hseg
    all_goals simp at hn
  · intro q v h hmem
    rcases mem_torrentInfoQuery_cases hmem with ⟨hn, _⟩ | ⟨hn, _⟩ | ⟨hn, _⟩ |
      ⟨hn, _⟩ | ⟨hn, _⟩ | ⟨_, hseg⟩ | ⟨hn, _⟩
    · simp at hn
    · simp at hn
    · simp at hn
    · simp at hn
    · simp at hn
    · rw [h] at hseg; simp [intQ] at hseg
    all_goals simp at hn
  · intro q v h hmem
    rcases mem_torrentInfoQuery_cases hmem with ⟨hn, _⟩ | ⟨hn, _⟩ | ⟨hn, _⟩ |
      ⟨hn, _⟩ | ⟨hn, _⟩ | ⟨hn, _⟩ | ⟨_, hseg⟩
    · simp at hn
    · simp at hn
    · simp at hn
    · simp at hn
    · simp at hn
    · simp at hn
    · rw [h] at hseg; simp [hashesQ] at hseg

/-- C8 witness: the general clauses applied to the query with no filter and
the hash list a, b — the joined hashes parameter is present and no filter
parameter is. -/
theorem torrentInfoQuery_characterization_witness :
    ("hashes", "a|b") ∈ torrentInfoQuery noFilterABQuery ∧
    ("filter", "downloading") ∉ torrentInfoQuery noFilterABQuery := by
  constructor
  · exact torrentInfoQuery_characterization.2.1 noFilterABQuery ["a", "b"] rfl
  · exact torrentInfoQuery_characterization.2.2.1 noFilterABQuery "downloading" rfl

/-- A text field with a name other than urls never comes from the urls
block. -/
theorem text_not_mem_urlsEntries {nm v : String} (hnm : ¬ nm = "urls")
    {u : Option (OneOrMany String)} : FormEntry.text nm v ∉ urlsEntries u := by
  intro h
  obtain ⟨w, hw⟩ := mem_urlsEntries_name h
  injection hw with h1 h2
  exact hnm h1

/-- Text-field membership in a successfully built add form reduces to the
urls block and the scalar tail: the torrents loop contributes only file
fields. -/
theorem text_mem_addTorrent_form {p : TorrentAddParameters} {form : List FormEntry}
    (h : addTorrent p = Except.ok form) (nm v : String) :
    FormEntry.text nm v ∈ form ↔
      (FormEntry.text nm v ∈ urlsEntries p.urls ∨
        FormEntry.text nm v ∈ scalarEntries p) := by
  unfold addTorrent at h
  split at h
  · exact absurd h (by simp)
  · split at h
    · have hf : form = urlsEntries p.urls ++ scalarEntries p := (Except.ok.inj h).symm
      subst hf
      simp [List.mem_append]
    · rename_i ts hts
      split at h
      · exact absurd h (by simp)
      · rename_i tE hte
        have hf : form = urlsEntries p.urls ++ tE ++ scalarEntries p :=
          (Except.ok.inj h).symm
        subst hf
        have hfile := torrentEntriesAux_entries ts.toArray 0 tE hte
        simp only [List.mem_append]
        constructor
        · rintro ((hu | ht) | hs)
          · exact Or.inl hu
          · obtain ⟨b, fn, heq⟩ := hfile _ ht
            exact absurd heq (by simp)
          · exact Or.inr hs
        · rintro (hu | hs)
          · exact Or.inl (Or.inl hu)
          · exact Or.inr hs

/-- C5 counterexample: the paused flag is present in the request with
value false, yet the built form carries no paused field at all — the
truthy-only inclusion check omits present falsy values. -/
theorem paused_false_field_omitted :
    addTorrent pausedFalseRequest =
      Except.ok [FormEntry.file "torrents" dBlob "torrent_0.torrent"] ∧
    pausedFalseRequest.paused = some false :=
  ⟨rfl, rfl⟩

/-- C5 (amended): each scalar optional field of an add request is appended
as an individual stringified text field exactly when it is present with a
truthy value — a non-empty string, the boolean true, or a non-zero number;
a field that is absent, or present with a falsy value such as false, zero
or the empty string, produces no multipart field at all. -/
theorem scalar_fields_truthy_characterization
    (p : TorrentAddParameters) (form : List FormEntry)
    (h : addTorrent p = Except.ok form) (v : String) :
    ((FormEntry.text "savepath" v ∈ form) ↔ (p.savepath = some v ∧ ¬ v = "")) ∧
    ((FormEntry.text "category" v ∈ form) ↔ (p.category = some v ∧ ¬ v = "")) ∧
    ((FormEntry.text "paused" v ∈ form) ↔ (p.paused = some true ∧ v = "true")) ∧
    ((FormEntry.text "skip_checking" v ∈ form) ↔
      (p.skip_checking = some true ∧ v = "true")) ∧
    ((FormEntry.text "rename" v ∈ form) ↔ (p.rename = some v ∧ ¬ v = "")) ∧
    ((FormEntry.text "upLimit" v ∈ form) ↔
      (∃ n : Int, p.upLimit = some n ∧ ¬ n = 0 ∧ v = toString n)) ∧
    ((FormEntry.text "dlLimit" v ∈ form) ↔
      (∃ n : Int, p.dlLimit = some n ∧ ¬ n = 0 ∧ v = toString n)) := by
  refine ⟨?_, ?_, ?_, ?_, ?_, ?_, ?_⟩ <;> rw [text_mem_addTorrent_form h] <;>
    simp [text_not_mem_urlsEntries, scalarEntries, List.mem_append,
      text_mem_optStrEntry, text_mem_optBoolEntry, text_mem_optIntEntry]

/-- C5 witness: for the request with one file and paused set to true, the
form carries the stringified paused field, and no savepath field since the
savepath is absent. -/
theorem scalar_fields_truthy_characterization_witness :
    FormEntry.text "paused" "true" ∈ pausedTrueForm ∧
    FormEntry.text "savepath" "x" ∉ pausedTrueForm := by
  have h := scalar_fields_truthy_characterization pausedTrueRequest pausedTrueForm rfl
  constructor
  · exact (h "true").2.2.1.mpr ⟨rfl, rfl⟩
  · intro hm
    have h2 := (h "x").1.mp hm
    simp [pausedTrueRequest] at h2

/-- C9 counterexample: a unit whose filename field is given but empty is
assigned the generated fallback, not its supplied (empty) filename. -/
theorem empty_filename_gets_fallback :
    addTorrent emptyFilenameRequest =
      Except.ok [FormEntry.file "torrents" dBlob "torrent_0.torrent"] ∧
    emptyNameFile.filename = some "" ∧ ¬ "torrent_0.torrent" = "" :=
  ⟨rfl, rfl, by decide⟩

/-- C9 (amended): the torrents loop turns each unit into one multipart
file field named torrents; its filename is the supplied filename when a
non-empty one is given, and the generated fallback torrent_i.torrent —
with i the unit's zero-based position — when the filename is absent or
empty; in particular two filename-less units receive torrent_0.torrent and
torrent_1.torrent. -/
theorem torrent_entries_characterization :
    (∀ (ts : List TorrentFile) (es : List FormEntry),
        torrentEntriesAux 0 ts = Except.ok es →
        es.length = ts.length ∧
        ∀ (i : Nat) (t : TorrentFile), ts[i]? = some t →
          ∃ b : Blob, torrentBlob t.buffer t.content_type = Except.ok b ∧
            (∀ s : String, t.filename = some s → ¬ s = "" →
                es[i]? = some (FormEntry.file "torrents" b s)) ∧
            ((t.filename = none ∨ t.filename = some "") →
                es[i]? = some (FormEntry.file "torrents" b
                  ("torrent_" ++ toString i ++ ".torrent")))) ∧
    addTorrent twoNoNameRequest = Except.ok twoNoNameEntries := by
  constructor
  · intro ts es h
    obtain ⟨hlen, hspec⟩ := torrentEntriesAux_spec ts 0 es h
    refine ⟨hlen, ?_⟩
    intro i t ht
    obtain ⟨b, hb, he⟩ := hspec i t ht
    refine ⟨b, hb, ?_, ?_⟩
    · intro s hs hsne
      rw [he]
      simp [fileNameFor, hs, hsne]
    · rintro (hn | hn) <;> rw [he] <;> simp [fileNameFor, hn]
  · rfl

/-- C9 witness: the loop applied to the two filename-less units — two
entries are built and the entry in position 1 is the file field named
torrents with the fallback filename torrent_1.torrent. -/
theorem torrent_entries_characterization_witness :
    twoNoNameEntries.length = twoNoNameFiles.length ∧
    twoNoNameEntries[1]? = some (FormEntry.file "torrents" eBlob "torrent_1.torrent") := by
  have h := torrent_entries_characterization.1 twoNoNameFiles twoNoNameEntries rfl
  refine ⟨h.1, ?_⟩
  obtain ⟨b, hb, _, hfall⟩ := h.2 1 ⟨none, none, JsBuffer.strVal "e", torrentCT⟩ rfl
  have hentry := hfall (Or.inl rfl)
  have h2 : torrentBlob (JsBuffer.strVal "e") torrentCT = Except.ok eBlob := rfl
  rw [hb] at h2
  rw [Except.ok.inj h2] at hentry
  exact hentry

end QBitWrap
